import Mathlib

/-!
Shallow embedding of the upload store of `src/store/uploads.ts`
(eullerbraz/upload-widget).

Modelling choices, stated once:

* The zustand store's `Map<string, Upload>` is an insertion-ordered
  association list `Store := List (String × Upload)`; `Map.get` is
  `getUpload` (first binding wins) and `Map.set` is `setUpload`
  (replace the existing binding in place, else append).
* JS `undefined` for the optional fields `abortController`,
  `compressedSizeInBytes`, `remoteUrl` is `Option`; an `AbortController`
  is identified by a `Nat` allocation tag (a fresh tag models
  `new AbortController()`).
* A `Partial<Upload>` argument of `updateUpload` is `UploadPatch`: each
  field is `none` when the key is absent from the object literal, and
  `some v` when the key is present (so an explicit `field: undefined`
  is `some none`, which the spread `{ ...upload, ...data }` does write).
* The asynchronous pipeline `processUpload` is a total function of the
  store and of the outcomes delivered by the external collaborators
  (`compressImage`, `uploadFileToStorage`): a `PipelineEnv` records the
  compression result, the cumulative progress callbacks, and the
  transfer result.  `CanceledError` is `PipeError.canceledError`.
  Totality of the function into `Store` models the `try/catch` that
  absorbs every rejection inside the store boundary.
* `usePendingUploads` is the pair `isThereAnyPendingUploads`,
  `globalPercentage`.  JS `Math.round x` for `x ≥ 0` is
  `⌊x + 1/2⌋`, computed on naturals as `(2*a + b) / (2*b)` for `a/b`;
  `(uploaded * 100) / 0` is `NaN` in JS and `Math.min (NaN) 100 = NaN`,
  so `globalPercentage` returns `Option Nat` with `none` for `NaN`.
* JS truthiness of `upload.compressedSizeInBytes` (used both by the
  numerator guard and by `||` in the denominator) is: the field is
  present and nonzero.
-/

/-- A browser `File`: only the fields the store reads (`name`, `size`). -/
structure JsFile where
  name : String
  size : Nat
deriving DecidableEq

/-- `Upload.status : 'progress' | 'success' | 'error' | 'canceled'`. -/
inductive Status where
  | progress
  | success
  | error
  | canceled
deriving DecidableEq

/-- The `Upload` record type of `uploads.ts` (lines 9–18). -/
structure Upload where
  name : String
  file : JsFile
  abortController : Option Nat
  status : Status
  originalSizeInBytes : Nat
  uploadSizeInBytes : Nat
  compressedSizeInBytes : Option Nat
  remoteUrl : Option String
deriving DecidableEq

/-- The store's `uploads : Map<string, Upload>`, insertion ordered. -/
abbrev Store := List (String × Upload)

/-- `Map.get`: the value at the first binding of the key, if any. -/
def getUpload : Store → String → Option Upload
  | [], _ => none
  | p :: rest, id => if p.1 = id then some p.2 else getUpload rest id

/-- `Map.set`: replace the key's binding in place, else append. -/
def setUpload : Store → String → Upload → Store
  | [], id, u => [(id, u)]
  | p :: rest, id, u => if p.1 = id then (id, u) :: rest else p :: setUpload rest id u

/-- A `Partial<Upload>`: `none` = key absent, `some v` = key present
with value `v` (`some none` = key present with value `undefined`). -/
structure UploadPatch where
  name : Option String := none
  file : Option JsFile := none
  abortController : Option (Option Nat) := none
  status : Option Status := none
  originalSizeInBytes : Option Nat := none
  uploadSizeInBytes : Option Nat := none
  compressedSizeInBytes : Option (Option Nat) := none
  remoteUrl : Option (Option String) := none
deriving DecidableEq

/-- The spread merge `{ ...upload, ...data }` of `updateUpload`. -/
def applyPatch (u : Upload) (p : UploadPatch) : Upload where
  name := p.name.getD u.name
  file := p.file.getD u.file
  abortController := p.abortController.getD u.abortController
  status := p.status.getD u.status
  originalSizeInBytes := p.originalSizeInBytes.getD u.originalSizeInBytes
  uploadSizeInBytes := p.uploadSizeInBytes.getD u.uploadSizeInBytes
  compressedSizeInBytes := p.compressedSizeInBytes.getD u.compressedSizeInBytes
  remoteUrl := p.remoteUrl.getD u.remoteUrl

/-- `updateUpload` (lines 35–43): read the current record, merge the
supplied fields, write back; a missing identifier is ignored. -/
def updateUpload (s : Store) (id : String) (p : UploadPatch) : Store :=
  match getUpload s id with
  | none => s
  | some u => setUpload s id (applyPatch u p)

/-- The two rejection kinds the pipeline distinguishes: axios's
`CanceledError` versus everything else. -/
inductive PipeError where
  | canceledError
  | otherError
deriving DecidableEq

/-- Outcomes of the external collaborators for one pipeline run:
the compression result (size of the compressed file), the cumulative
byte counts delivered to `onProgress`, and the transfer result (the
remote `url`).  Progress events are delivered only when the transfer
actually started, i.e. when compression succeeded. -/
structure PipelineEnv where
  compressResult : Except PipeError Nat
  progressEvents : List Nat
  transferResult : Except PipeError String

/-- The patch written by `processUpload` before the `try` block
(lines 52–58): reset transient fields, install the fresh controller,
set status `progress`. -/
def resetPatch (ctrl : Nat) : UploadPatch :=
  { uploadSizeInBytes := some 0
    remoteUrl := some none
    compressedSizeInBytes := some none
    abortController := some (some ctrl)
    status := some Status.progress }

/-- The `catch` block of `processUpload` (lines 83–89): `CanceledError`
maps to status `canceled`, anything else to status `error`. -/
def catchPipeline (s : Store) (id : String) (e : PipeError) : Store :=
  match e with
  | PipeError.canceledError => updateUpload s id { status := some Status.canceled }
  | PipeError.otherError => updateUpload s id { status := some Status.error }

/-- The `try/catch` body of `processUpload` (lines 60–89): record the
compressed size, apply each progress callback, then finalize with
`success`/`canceled`/`error`. -/
def runPipeline (s : Store) (id : String) (env : PipelineEnv) : Store :=
  match env.compressResult with
  | Except.error e => catchPipeline s id e
  | Except.ok csize =>
    let s1 := updateUpload s id { compressedSizeInBytes := some (some csize) }
    let s2 := env.progressEvents.foldl
      (fun st bytes => updateUpload st id { uploadSizeInBytes := some bytes }) s1
    match env.transferResult with
    | Except.error e => catchPipeline s2 id e
    | Except.ok url =>
      updateUpload s2 id { status := some Status.success, remoteUrl := some (some url) }

/-- `processUpload` (lines 45–90): missing identifier is a no-op;
otherwise reset with a fresh controller `ctrl`, then run the pipeline
against the collaborators' outcomes.  The function is total into
`Store`: no rejection escapes it. -/
def processUpload (s : Store) (id : String) (ctrl : Nat) (env : PipelineEnv) : Store :=
  match getUpload s id with
  | none => s
  | some _ => runPipeline (updateUpload s id (resetPatch ctrl)) id env

/-- `retryUpload` (lines 100–102) just re-invokes `processUpload`. -/
def retryUpload (s : Store) (id : String) (ctrl : Nat) (env : PipelineEnv) : Store :=
  processUpload s id ctrl env

/-- `cancelUpload` (lines 92–98): never mutates the store; returns the
store unchanged together with the controller tag whose `abort()` was
invoked, if any (`none` when the identifier is missing or the record
has no controller). -/
def cancelUpload (s : Store) (id : String) : Store × Option Nat :=
  match getUpload s id with
  | none => (s, none)
  | some u => (s, u.abortController)

/-- The record `addUploads` (lines 108–114) creates for a file. -/
def mkUpload (f : JsFile) : Upload where
  name := f.name
  file := f
  abortController := none
  status := Status.progress
  originalSizeInBytes := f.size
  uploadSizeInBytes := 0
  compressedSizeInBytes := none
  remoteUrl := none

/-- The synchronous store effect of `addUploads` (lines 104–122): for
each file, insert a fresh record under its generated identifier (the
`crypto.randomUUID()` results are the first components of `batch`).
The pipeline it then starts is modelled separately by `processUpload`. -/
def addUploads (s : Store) (batch : List (String × JsFile)) : Store :=
  batch.foldl (fun st pf => setUpload st pf.1 (mkUpload pf.2)) s

/-- `uploads.some(u => u.status === 'progress')` (lines 139–141). -/
def isThereAnyPendingUploads (s : Store) : Bool :=
  s.any (fun p => p.2.status = Status.progress)

/-- Denominator contribution of one record (line 153–154):
`compressedSizeInBytes || originalSizeInBytes` with JS truthiness. -/
def denomOf (u : Upload) : Nat :=
  match u.compressedSizeInBytes with
  | some c => if c = 0 then u.originalSizeInBytes else c
  | none => u.originalSizeInBytes

/-- Numerator contribution of one record (lines 149–151):
`uploadSizeInBytes` guarded by truthiness of `compressedSizeInBytes`. -/
def numerOf (u : Upload) : Nat :=
  match u.compressedSizeInBytes with
  | some c => if c = 0 then 0 else u.uploadSizeInBytes
  | none => 0

/-- The `total` accumulator of the `reduce` (lines 147–159). -/
def totalOf (s : Store) : Nat :=
  s.foldl (fun acc p => acc + denomOf p.2) 0

/-- The `uploaded` accumulator of the `reduce` (lines 147–159). -/
def uploadedOf (s : Store) : Nat :=
  s.foldl (fun acc p => acc + numerOf p.2) 0

/-- JS `Math.round (a / b)` for naturals, `b > 0`: round half towards
`+∞`, i.e. `⌊a/b + 1/2⌋ = (2*a + b) / (2*b)` on naturals. -/
def jsRound (a b : Nat) : Nat :=
  (2 * a + b) / (2 * b)

/-- `globalPercentage` of `usePendingUploads` (lines 134–167): `100`
when nothing is pending, otherwise
`Math.min(Math.round((uploaded * 100) / total), 100)`; `none` is the
`NaN` produced by the unguarded division when `total = 0`. -/
def globalPercentage (s : Store) : Option Nat :=
  if isThereAnyPendingUploads s then
    let total := totalOf s
    let uploaded := uploadedOf s
    if total = 0 then none
    else some (min (jsRound (uploaded * 100) total) 100)
  else some 100

/-! ### Basic lemmas about the association-list map -/

theorem getUpload_setUpload_self (s : Store) (id : String) (u : Upload) :
    getUpload (setUpload s id u) id = some u := by
  induction s with
  | nil => simp [setUpload, getUpload]
  | cons p rest ih =>
    by_cases h : p.1 = id
    · simp [setUpload, getUpload, h]
    · simp [setUpload, getUpload, h, ih]

theorem getUpload_setUpload_other (s : Store) (id id' : String) (u : Upload)
    (h : id' ≠ id) : getUpload (setUpload s id u) id' = getUpload s id' := by
  have h2 : id ≠ id' := Ne.symm h
  induction s with
  | nil => simp [setUpload, getUpload, h2]
  | cons p rest ih =>
    by_cases hp : p.1 = id
    · simp [setUpload, getUpload, hp, h2]
    · simp [setUpload, getUpload, hp, ih]

theorem length_setUpload_absent (s : Store) (id : String) (u : Upload)
    (h : getUpload s id = none) : (setUpload s id u).length = s.length + 1 := by
  induction s with
  | nil => simp [setUpload]
  | cons p rest ih =>
    by_cases hp : p.1 = id
    · simp [getUpload, hp] at h
    · simp only [getUpload, hp, if_false] at h
      simp [setUpload, hp, ih h]

theorem updateUpload_absent (s : Store) (id : String) (p : UploadPatch)
    (h : getUpload s id = none) : updateUpload s id p = s := by
  simp [updateUpload, h]

theorem getUpload_updateUpload_self (s : Store) (id : String) (p : UploadPatch)
    (u : Upload) (h : getUpload s id = some u) :
    getUpload (updateUpload s id p) id = some (applyPatch u p) := by
  simp [updateUpload, h, getUpload_setUpload_self]

theorem getUpload_updateUpload_other (s : Store) (id id' : String) (p : UploadPatch)
    (h : id' ≠ id) : getUpload (updateUpload s id p) id' = getUpload s id' := by
  unfold updateUpload
  cases hs : getUpload s id with
  | none => rfl
  | some u => exact getUpload_setUpload_other s id id' (applyPatch u p) h

/-! ### Rounding: `Math.round` on naturals versus rational floors -/

theorem jsRound_eq_floor (a b : Nat) (hb : b ≠ 0) :
    jsRound a b = ⌊(a : ℚ) / b + 1 / 2⌋₊ := by
  have hbq : (b : ℚ) ≠ 0 := Nat.cast_ne_zero.mpr hb
  have h1 : ((a : ℚ)) / b + 1 / 2 = ((2 * a + b : ℕ) : ℚ) / ((2 * b : ℕ) : ℚ) := by
    push_cast
    field_simp
    ring
  rw [jsRound, h1, Nat.floor_div_nat]
  norm_cast

theorem jsRound_le_jsRound (a a' b b' : Nat) (ha : a ≤ a') (hb' : 0 < b')
    (hbb : b' ≤ b) : jsRound a b ≤ jsRound a' b' := by
  have hb : b ≠ 0 := by omega
  rw [jsRound_eq_floor a b hb, jsRound_eq_floor a' b' (by omega)]
  apply Nat.floor_mono
  have hdiv : (a : ℚ) / b ≤ (a' : ℚ) / b' := by
    apply div_le_div₀ (by positivity) (by exact_mod_cast ha) (by exact_mod_cast hb')
      (by exact_mod_cast hbb)
  linarith

/-! ### Sum shape of the `reduce` accumulators -/

theorem foldl_add_eq_sum (f : String × Upload → Nat) (s : Store) (n : Nat) :
    s.foldl (fun acc p => acc + f p) n = n + (s.map f).sum := by
  induction s generalizing n with
  | nil => simp
  | cons p rest ih =>
    simp only [List.foldl_cons, List.map_cons, List.sum_cons, ih]
    omega

theorem totalOf_eq_sum (s : Store) : totalOf s = (s.map fun p => denomOf p.2).sum := by
  simpa using foldl_add_eq_sum (fun p => denomOf p.2) s 0

theorem uploadedOf_eq_sum (s : Store) : uploadedOf s = (s.map fun p => numerOf p.2).sum := by
  simpa using foldl_add_eq_sum (fun p => numerOf p.2) s 0

/-! ### Presence preservation through the pipeline's updates -/

theorem isSome_getUpload_updateUpload (s : Store) (id : String) (p : UploadPatch)
    (h : (getUpload s id).isSome = true) :
    (getUpload (updateUpload s id p) id).isSome = true := by
  cases hs : getUpload s id with
  | none => rw [hs] at h; cases h
  | some u => rw [getUpload_updateUpload_self s id p u hs]; rfl

theorem isSome_getUpload_foldl_progress (l : List Nat) (s : Store) (id : String)
    (h : (getUpload s id).isSome = true) :
    (getUpload (l.foldl (fun st bytes => updateUpload st id { uploadSizeInBytes := some bytes }) s) id).isSome = true := by
  induction l generalizing s with
  | nil => exact h
  | cons b rest ih => exact ih _ (isSome_getUpload_updateUpload s id _ h)

theorem status_catchPipeline_canceled (s : Store) (id : String)
    (h : (getUpload s id).isSome = true) :
    ∃ u', getUpload (catchPipeline s id PipeError.canceledError) id = some u' ∧
      u'.status = Status.canceled := by
  cases hs : getUpload s id with
  | none => rw [hs] at h; cases h
  | some u =>
    refine ⟨applyPatch u { status := some Status.canceled }, ?_, rfl⟩
    exact getUpload_updateUpload_self s id _ u hs

theorem status_catchPipeline_error (s : Store) (id : String)
    (h : (getUpload s id).isSome = true) :
    ∃ u', getUpload (catchPipeline s id PipeError.otherError) id = some u' ∧
      u'.status = Status.error := by
  cases hs : getUpload s id with
  | none => rw [hs] at h; cases h
  | some u =>
    refine ⟨applyPatch u { status := some Status.error }, ?_, rfl⟩
    exact getUpload_updateUpload_self s id _ u hs

/-- How a pipeline run rejected, if it did: the compression outcome is
decisive when it failed, else the transfer outcome. -/
def pipelineFailure (env : PipelineEnv) : Option PipeError :=
  match env.compressResult with
  | Except.error e => some e
  | Except.ok _ =>
    match env.transferResult with
    | Except.error e => some e
    | Except.ok _ => none

/-! ### Lookup through `addUploads` -/

theorem getUpload_addUploads_not_mem (batch : List (String × JsFile)) (s : Store)
    (id : String) (h : id ∉ batch.map Prod.fst) :
    getUpload (addUploads s batch) id = getUpload s id := by
  induction batch generalizing s with
  | nil => rfl
  | cons pf rest ih =>
    simp only [List.map_cons, List.mem_cons, not_or] at h
    show getUpload (addUploads (setUpload s pf.1 (mkUpload pf.2)) rest) id = getUpload s id
    rw [ih _ h.2, getUpload_setUpload_other s pf.1 id (mkUpload pf.2) h.1]

/-! ### Claim theorems -/

/-- Claim C2: if the pipeline rejects with the distinguished
cancellation condition (`CanceledError`) the record's status becomes
`canceled`; any other rejection makes it `error`.  `processUpload` is a
total function into `Store`, which embeds the propagation policy that
no exception escapes the store boundary. -/
theorem processUpload_failure_status (s : Store) (id : String) (ctrl : Nat)
    (env : PipelineEnv) (hp : (getUpload s id).isSome = true) :
    (pipelineFailure env = some PipeError.canceledError →
      ∃ u', getUpload (processUpload s id ctrl env) id = some u' ∧
        u'.status = Status.canceled) ∧
    (pipelineFailure env = some PipeError.otherError →
      ∃ u', getUpload (processUpload s id ctrl env) id = some u' ∧
        u'.status = Status.error) := by
  cases hs : getUpload s id with
  | none => rw [hs] at hp; cases hp
  | some u =>
    have hps : processUpload s id ctrl env =
        runPipeline (updateUpload s id (resetPatch ctrl)) id env := by
      unfold processUpload
      rw [hs]
    have hp1 : (getUpload (updateUpload s id (resetPatch ctrl)) id).isSome = true :=
      isSome_getUpload_updateUpload s id _ (by rw [hs]; rfl)
    rw [hps]
    unfold runPipeline
    cases hc : env.compressResult with
    | error e =>
      have hf : pipelineFailure env = some e := by unfold pipelineFailure; rw [hc]
      cases e with
      | canceledError =>
        refine ⟨fun _ => status_catchPipeline_canceled _ id hp1, fun habs => ?_⟩
        rw [hf] at habs
        cases habs
      | otherError =>
        refine ⟨fun habs => ?_, fun _ => status_catchPipeline_error _ id hp1⟩
        rw [hf] at habs
        cases habs
    | ok csize =>
      have hp2 : (getUpload (updateUpload (updateUpload s id (resetPatch ctrl)) id
          { compressedSizeInBytes := some (some csize) }) id).isSome = true :=
        isSome_getUpload_updateUpload _ id _ hp1
      have hp3 := isSome_getUpload_foldl_progress env.progressEvents _ id hp2
      cases ht : env.transferResult with
      | error e =>
        have hf : pipelineFailure env = some e := by
          unfold pipelineFailure
          rw [hc, ht]
        cases e with
        | canceledError =>
          refine ⟨fun _ => status_catchPipeline_canceled _ id hp3, fun habs => ?_⟩
          rw [hf] at habs
          cases habs
        | otherError =>
          refine ⟨fun habs => ?_, fun _ => status_catchPipeline_error _ id hp3⟩
          rw [hf] at habs
          cases habs
      | ok url =>
        have hf : pipelineFailure env = none := by
          unfold pipelineFailure
          rw [hc, ht]
        constructor <;> (intro habs; rw [hf] at habs; cases habs)

/-- A store with one in-progress record, and two pipeline environments,
one canceled during compression, one failing during transfer. -/
def demoUpload : Upload :=
  mkUpload { name := "photo.png", size := 1000 }

/-- One-record demo store used by several witnesses. -/
def demoStore : Store := [("a", demoUpload)]

/-- Environment whose compression rejects with `CanceledError`. -/
def canceledEnv : PipelineEnv :=
  { compressResult := Except.error PipeError.canceledError
    progressEvents := []
    transferResult := Except.error PipeError.canceledError }

/-- Witness for C2: on the one-record demo store, a cancellation
rejection ends with the record's status `canceled`. -/
theorem processUpload_failure_status_witness :
    ∃ u', getUpload (processUpload demoStore "a" 7 canceledEnv) "a" = some u' ∧
      u'.status = Status.canceled :=
  (processUpload_failure_status demoStore "a" 7 canceledEnv (by decide)).1 (by decide)

/-- Claim C3: `addUploads` with fresh, pairwise-distinct identifiers
grows the collection by exactly the batch size, and every new record
starts in progress with zero transferred bytes, original size equal to
the file's byte length, no compressed size and no remote reference. -/
theorem addUploads_growth_and_initial_records (s : Store) (batch : List (String × JsFile))
    (hfresh : ∀ pf ∈ batch, getUpload s pf.1 = none)
    (hnodup : (batch.map Prod.fst).Nodup) :
    (addUploads s batch).length = s.length + batch.length ∧
    ∀ pf ∈ batch, ∃ u, getUpload (addUploads s batch) pf.1 = some u ∧
      u.status = Status.progress ∧ u.uploadSizeInBytes = 0 ∧
      u.originalSizeInBytes = pf.2.size ∧ u.compressedSizeInBytes = none ∧
      u.remoteUrl = none := by
  induction batch generalizing s with
  | nil => simp [addUploads]
  | cons pf rest ih =>
    simp only [List.map_cons, List.nodup_cons] at hnodup
    have hfreshhd : getUpload s pf.1 = none := hfresh pf (List.mem_cons_self pf rest)
    have hfresh' : ∀ q ∈ rest, getUpload (setUpload s pf.1 (mkUpload pf.2)) q.1 = none := by
      intro q hq
      have hqne : q.1 ≠ pf.1 := by
        intro he
        exact hnodup.1 (he ▸ List.mem_map_of_mem Prod.fst hq)
      rw [getUpload_setUpload_other s pf.1 q.1 (mkUpload pf.2) hqne]
      exact hfresh q (List.mem_cons_of_mem pf hq)
    have hstep : addUploads s (pf :: rest) = addUploads (setUpload s pf.1 (mkUpload pf.2)) rest := rfl
    obtain ⟨ihl, ihm⟩ := ih (setUpload s pf.1 (mkUpload pf.2)) hfresh' hnodup.2
    constructor
    · rw [hstep, ihl, length_setUpload_absent s pf.1 (mkUpload pf.2) hfreshhd]
      simp [Nat.add_assoc, Nat.add_comm 1]
    · intro q hq
      rcases List.mem_cons.mp hq with hq | hq
      · subst hq
        refine ⟨mkUpload q.2, ?_, rfl, rfl, rfl, rfl, rfl⟩
        rw [hstep, getUpload_addUploads_not_mem rest _ q.1 hnodup.1,
          getUpload_setUpload_self]
      · exact hstep ▸ ihm q hq

/-- Witness for C3: adding two fresh files to the empty store yields two
pristine in-progress records. -/
theorem addUploads_growth_witness :
    (addUploads [] [("a", { name := "x.png", size := 10 }), ("b", { name := "y.png", size := 20 })]).length = 0 + 2 ∧
    ∀ pf ∈ [(("a" : String), ({ name := "x.png", size := 10 } : JsFile)), ("b", { name := "y.png", size := 20 })],
      ∃ u, getUpload (addUploads [] [("a", { name := "x.png", size := 10 }), ("b", { name := "y.png", size := 20 })]) pf.1 = some u ∧
        u.status = Status.progress ∧ u.uploadSizeInBytes = 0 ∧
        u.originalSizeInBytes = pf.2.size ∧ u.compressedSizeInBytes = none ∧
        u.remoteUrl = none :=
  addUploads_growth_and_initial_records [] _ (by decide) (by decide)

/-- Claim C4: the "any pending" flag is true iff some record is
in-progress, and when none is, the reported percentage is exactly 100,
whatever the individual statuses are. -/
theorem pending_flag_and_settled_percentage (s : Store) :
    (isThereAnyPendingUploads s = true ↔ ∃ p ∈ s, p.2.status = Status.progress) ∧
    (isThereAnyPendingUploads s = false → globalPercentage s = some 100) := by
  constructor
  · simp [isThereAnyPendingUploads, List.any_eq_true]
  · intro h
    simp [globalPercentage, h]

/-- A store whose two records both resolved unsuccessfully. -/
def settledStore : Store :=
  [("a", { demoUpload with status := Status.error }),
   ("b", { demoUpload with status := Status.canceled })]

/-- Witness for C4: with one failed and one canceled record (none
pending), the reported percentage is 100. -/
theorem pending_flag_and_settled_percentage_witness :
    globalPercentage settledStore = some 100 :=
  (pending_flag_and_settled_percentage settledStore).2 (by decide)

/-- Claim C5: starting the pipeline on an existing record first resets
transferred bytes to 0, clears compressed size and remote reference,
installs the freshly allocated cancellation handle `ctrl` in place of
any previous one, and sets status to in-progress — and only then does
the compress/transfer body `runPipeline` run, on that reset store. -/
theorem processUpload_resets_before_running (s : Store) (id : String) (ctrl : Nat)
    (env : PipelineEnv) (u : Upload) (h : getUpload s id = some u) :
    processUpload s id ctrl env = runPipeline (updateUpload s id (resetPatch ctrl)) id env ∧
    getUpload (updateUpload s id (resetPatch ctrl)) id = some
      { u with
        uploadSizeInBytes := 0
        compressedSizeInBytes := none
        remoteUrl := none
        abortController := some ctrl
        status := Status.progress } := by
  constructor
  · unfold processUpload
    rw [h]
  · rw [getUpload_updateUpload_self s id (resetPatch ctrl) u h]
    rfl

/-- A record in a resolved state carrying stale transient data, used to
exercise the reset. -/
def staleUpload : Upload :=
  { demoUpload with
    status := Status.error
    uploadSizeInBytes := 400
    compressedSizeInBytes := some 700
    remoteUrl := some "old"
    abortController := some 3 }

/-- Witness for C5: retrying the stale failed record resets its
transient fields and hands control to the pipeline body. -/
theorem processUpload_resets_before_running_witness :
    processUpload [("a", staleUpload)] "a" 9 canceledEnv =
      runPipeline (updateUpload [("a", staleUpload)] "a" (resetPatch 9)) "a" canceledEnv ∧
    getUpload (updateUpload [("a", staleUpload)] "a" (resetPatch 9)) "a" = some
      { staleUpload with
        uploadSizeInBytes := 0
        compressedSizeInBytes := none
        remoteUrl := none
        abortController := some 9
        status := Status.progress } :=
  processUpload_resets_before_running [("a", staleUpload)] "a" 9 canceledEnv staleUpload (by decide)

/-- Claim C7: invoking cancel on a record that has already resolved
(succeeded, failed or canceled) changes nothing: the whole collection —
every field of every record, including the target's status — is exactly
the store that went in.  (The fired handle, if any, has no pending
pipeline attempt left to observe it.) -/
theorem cancelUpload_resolved_noop (s : Store) (id : String) (u : Upload)
    (h : getUpload s id = some u) (hres : u.status ≠ Status.progress) :
    (cancelUpload s id).1 = s := by
  unfold cancelUpload
  rw [h]

/-- Witness for C7: canceling the failed stale record leaves the store
untouched. -/
theorem cancelUpload_resolved_noop_witness :
    (cancelUpload [("a", staleUpload)] "a").1 = [("a", staleUpload)] :=
  cancelUpload_resolved_noop [("a", staleUpload)] "a" staleUpload (by decide) (by decide)

/-- Claim C8: on an identifier with no record, `cancelUpload`,
`retryUpload` (and the `processUpload` it delegates to) and
`updateUpload` all return the collection unchanged; each is a total
function, so none can raise. -/
theorem unknown_id_operations_noop (s : Store) (id : String) (p : UploadPatch)
    (ctrl : Nat) (env : PipelineEnv) (h : getUpload s id = none) :
    updateUpload s id p = s ∧ cancelUpload s id = (s, none) ∧
    retryUpload s id ctrl env = s ∧ processUpload s id ctrl env = s := by
  refine ⟨updateUpload_absent s id p h, ?_, ?_, ?_⟩ <;>
    simp [cancelUpload, retryUpload, processUpload, h]

/-- Witness for C8: the three entry points ignore the unknown
identifier "ghost" on the demo store. -/
theorem unknown_id_operations_noop_witness :
    updateUpload demoStore "ghost" { status := some Status.canceled } = demoStore ∧
    cancelUpload demoStore "ghost" = (demoStore, none) ∧
    retryUpload demoStore "ghost" 5 canceledEnv = demoStore ∧
    processUpload demoStore "ghost" 5 canceledEnv = demoStore :=
  unknown_id_operations_noop demoStore "ghost" { status := some Status.canceled } 5
    canceledEnv (by decide)

/-- Claim C9: `updateUpload` merges only the supplied fields of the
target record: every unsupplied field keeps its value, every other
record is untouched, and a missing identifier leaves the collection
entirely unchanged. -/
theorem updateUpload_frame (s : Store) (id : String) (p : UploadPatch) :
    (getUpload s id = none → updateUpload s id p = s) ∧
    (∀ id', id' ≠ id → getUpload (updateUpload s id p) id' = getUpload s id') ∧
    (∀ u, getUpload s id = some u →
      getUpload (updateUpload s id p) id = some (applyPatch u p) ∧
      (p.name = none → (applyPatch u p).name = u.name) ∧
      (p.file = none → (applyPatch u p).file = u.file) ∧
      (p.abortController = none → (applyPatch u p).abortController = u.abortController) ∧
      (p.status = none → (applyPatch u p).status = u.status) ∧
      (p.originalSizeInBytes = none → (applyPatch u p).originalSizeInBytes = u.originalSizeInBytes) ∧
      (p.uploadSizeInBytes = none → (applyPatch u p).uploadSizeInBytes = u.uploadSizeInBytes) ∧
      (p.compressedSizeInBytes = none → (applyPatch u p).compressedSizeInBytes = u.compressedSizeInBytes) ∧
      (p.remoteUrl = none → (applyPatch u p).remoteUrl = u.remoteUrl)) := by
  refine ⟨updateUpload_absent s id p,
    fun id' h => getUpload_updateUpload_other s id id' p h,
    fun u h => ⟨getUpload_updateUpload_self s id p u h, ?_, ?_, ?_, ?_, ?_, ?_, ?_, ?_⟩⟩ <;>
    (intro hn; simp [applyPatch, hn])

/-- The patch the pipeline writes on success, used to exercise C9. -/
def successPatch : UploadPatch :=
  { status := some Status.success
    remoteUrl := some (some "https:~1~1store/x") }

/-- A second record, untouched bystander for the C9 witness. -/
def bystander : Upload := mkUpload { name := "other.png", size := 5 }

/-- Witness for C9: patching only status and remote reference of "a"
keeps its other fields and leaves record "b" untouched. -/
theorem updateUpload_frame_witness :
    getUpload (updateUpload [("a", demoUpload), ("b", bystander)] "a" successPatch) "b" =
      getUpload [("a", demoUpload), ("b", bystander)] "b" ∧
    getUpload (updateUpload [("a", demoUpload), ("b", bystander)] "a" successPatch) "a" =
      some (applyPatch demoUpload successPatch) ∧
    (applyPatch demoUpload successPatch).uploadSizeInBytes = demoUpload.uploadSizeInBytes ∧
    (applyPatch demoUpload successPatch).compressedSizeInBytes = demoUpload.compressedSizeInBytes :=
  ⟨(updateUpload_frame [("a", demoUpload), ("b", bystander)] "a" successPatch).2.1 "b" (by decide),
   ((updateUpload_frame [("a", demoUpload), ("b", bystander)] "a" successPatch).2.2 demoUpload (by decide)).1,
   ((updateUpload_frame [("a", demoUpload), ("b", bystander)] "a" successPatch).2.2 demoUpload (by decide)).2.2.2.2.2.2.1 (by decide),
   ((updateUpload_frame [("a", demoUpload), ("b", bystander)] "a" successPatch).2.2 demoUpload (by decide)).2.2.2.2.2.2.2.1 (by decide)⟩

/-- A zero-byte file: its record's denominator contribution is 0 while
compression is still pending. -/
def zeroByteStore : Store := addUploads [] [("z", { name := "empty.bin", size := 0 })]

/-- Claim C10: the reachable store holding one submitted zero-byte file
whose compression has not yet completed has an in-progress record, a
denominator sum of 0, and the unguarded division `(uploaded * 100) /
total` then yields `NaN` (modelled `none`) instead of a number in
`0..100`. -/
theorem globalPercentage_nan_on_zero_total :
    isThereAnyPendingUploads zeroByteStore = true ∧
    totalOf zeroByteStore = 0 ∧
    globalPercentage zeroByteStore = none := by
  decide

/-! ### Evolution of a fixed record set while all records stay pending -/

/-- The conditions C6 states between two snapshots of one record: still
in-progress on both sides, transferred bytes only increased, and the
compressed size either unchanged or newly known (compression just
completed). -/
def uploadEvolves (u u' : Upload) : Prop :=
  u.status = Status.progress ∧ u'.status = Status.progress ∧
  u'.originalSizeInBytes = u.originalSizeInBytes ∧
  u.uploadSizeInBytes ≤ u'.uploadSizeInBytes ∧
  (u'.compressedSizeInBytes = u.compressedSizeInBytes ∨
    (u.compressedSizeInBytes = none ∧ u'.compressedSizeInBytes.isSome = true))

/-- `uploadEvolves` strengthened by what the claim leaves implicit: a
newly known compressed size does not exceed the record's original
size (compression never grew the file). -/
def uploadEvolvesShrinking (u u' : Upload) : Prop :=
  uploadEvolves u u' ∧
  ∀ c, u.compressedSizeInBytes = none → u'.compressedSizeInBytes = some c →
    c ≤ u.originalSizeInBytes

/-- Two snapshots of a fixed record collection, record by record, under
the conditions of C6 as stated. -/
def storeEvolves (s s' : Store) : Prop :=
  List.Forall₂ (fun p p' => p.1 = p'.1 ∧ uploadEvolves p.2 p'.2) s s'

/-- Two snapshots of a fixed record collection whose newly known
compressed sizes are bounded by the original sizes. -/
def storeEvolvesShrinking (s s' : Store) : Prop :=
  List.Forall₂ (fun p p' => p.1 = p'.1 ∧ uploadEvolvesShrinking p.2 p'.2) s s'

theorem denomOf_le_of_evolves (u u' : Upload) (h : uploadEvolvesShrinking u u') :
    denomOf u' ≤ denomOf u := by
  obtain ⟨⟨_, _, horig, _, hcomp⟩, hbound⟩ := h
  rcases hcomp with hsame | ⟨hnone, hsome⟩
  · unfold denomOf
    rw [hsame, horig]
  · cases hc' : u'.compressedSizeInBytes with
    | none => rw [hc'] at hsome; cases hsome
    | some c =>
      have hcb := hbound c hnone hc'
      unfold denomOf
      rw [hc', hnone, horig]
      by_cases h0 : c = 0 <;> simp [h0, hcb]

theorem denomOf_ne_zero_of_evolves (u u' : Upload) (h : uploadEvolvesShrinking u u')
    (hne : denomOf u ≠ 0) : denomOf u' ≠ 0 := by
  obtain ⟨⟨_, _, horig, _, hcomp⟩, hbound⟩ := h
  rcases hcomp with hsame | ⟨hnone, hsome⟩
  · unfold denomOf at *
    rw [hsame, horig]
    exact hne
  · cases hc' : u'.compressedSizeInBytes with
    | none => rw [hc'] at hsome; cases hsome
    | some c =>
      unfold denomOf at *
      rw [hnone] at hne
      have hne' : u.originalSizeInBytes ≠ 0 := hne
      rw [hc', horig]
      by_cases h0 : c = 0 <;> simp [h0, hne']

theorem numerOf_le_of_evolves (u u' : Upload) (h : uploadEvolves u u') :
    numerOf u ≤ numerOf u' := by
  obtain ⟨_, _, _, hup, hcomp⟩ := h
  rcases hcomp with hsame | ⟨hnone, _⟩
  · unfold numerOf
    rw [hsame]
    cases hc : u.compressedSizeInBytes with
    | none => exact Nat.le_refl 0
    | some c => by_cases h0 : c = 0 <;> simp [h0, hup]
  · unfold numerOf
    rw [hnone]
    exact Nat.zero_le _

theorem totalOf_le_of_evolves (s s' : Store) (h : storeEvolvesShrinking s s') :
    totalOf s' ≤ totalOf s := by
  rw [totalOf_eq_sum, totalOf_eq_sum]
  induction h with
  | nil => exact Nat.le_refl 0
  | cons hp _ ih =>
    simp only [List.map_cons, List.sum_cons]
    exact Nat.add_le_add (denomOf_le_of_evolves _ _ hp.2) ih

theorem totalOf_ne_zero_of_evolves (s s' : Store) (h : storeEvolvesShrinking s s')
    (hne : totalOf s ≠ 0) : totalOf s' ≠ 0 := by
  rw [totalOf_eq_sum] at *
  induction h with
  | nil => exact hne
  | cons hp htl ih =>
    simp only [List.map_cons, List.sum_cons] at *
    rcases Nat.eq_zero_or_pos (denomOf _) with h0 | hpos
    · rw [h0] at hne
      have := ih (by omega)
      omega
    · have := denomOf_ne_zero_of_evolves _ _ hp.2 (by omega)
      omega

theorem uploadedOf_le_of_evolves (s s' : Store) (h : storeEvolves s s') :
    uploadedOf s ≤ uploadedOf s' := by
  rw [uploadedOf_eq_sum, uploadedOf_eq_sum]
  induction h with
  | nil => exact Nat.le_refl 0
  | cons hp _ ih =>
    simp only [List.map_cons, List.sum_cons]
    exact Nat.add_le_add (numerOf_le_of_evolves _ _ hp.2) ih

theorem storeEvolves_of_shrinking (s s' : Store) (h : storeEvolvesShrinking s s') :
    storeEvolves s s' := by
  induction h with
  | nil => exact List.Forall₂.nil
  | cons hp _ ih => exact List.Forall₂.cons ⟨hp.1, hp.2.1⟩ ih

theorem pending_of_evolves (s s' : Store) (h : storeEvolves s s') (hne : s ≠ []) :
    isThereAnyPendingUploads s = true ∧ isThereAnyPendingUploads s' = true := by
  cases h with
  | nil => exact absurd rfl hne
  | cons hp htl =>
    constructor <;>
      (simp only [isThereAnyPendingUploads, List.any_cons, Bool.or_eq_true, decide_eq_true_eq]
       left)
    · exact hp.2.1
    · exact hp.2.2.1

/-- Claim C6 (amended): for a fixed record collection with a nonzero
denominator sum, while every record stays in-progress, transferred
bytes only grow and every newly known compressed size is at most the
record's original size, the aggregate percentage is defined on both
snapshots and does not decrease.  (The bound on new compressed sizes is
the amendment: without it the claim fails, see the counterexample.) -/
theorem globalPercentage_monotone (s s' : Store) (h : storeEvolvesShrinking s s')
    (ht : totalOf s ≠ 0) :
    ∃ p p', globalPercentage s = some p ∧ globalPercentage s' = some p' ∧ p ≤ p' := by
  have hse := storeEvolves_of_shrinking s s' h
  have hnil : s ≠ [] := by
    intro he
    subst he
    exact ht rfl
  obtain ⟨hp1, hp2⟩ := pending_of_evolves s s' hse hnil
  have ht' := totalOf_ne_zero_of_evolves s s' h ht
  refine ⟨min (jsRound (uploadedOf s * 100) (totalOf s)) 100,
    min (jsRound (uploadedOf s' * 100) (totalOf s')) 100, ?_, ?_, ?_⟩
  · simp [globalPercentage, hp1, ht]
  · simp [globalPercentage, hp2, ht']
  · refine min_le_min ?_ (Nat.le_refl 100)
    refine jsRound_le_jsRound _ _ _ _ ?_ (Nat.pos_of_ne_zero ht') (totalOf_le_of_evolves s s' h)
    exact Nat.mul_le_mul_right 100 (uploadedOf_le_of_evolves s s' hse)

/-- Snapshot before compression completed: 200-byte file, nothing
transferred yet. -/
def w6Before : Upload :=
  { demoUpload with originalSizeInBytes := 200, file := { name := "photo.png", size := 200 } }

/-- Snapshot after compression shrank the file to 100 bytes and 50
bytes were transferred. -/
def w6After : Upload :=
  { w6Before with compressedSizeInBytes := some 100, uploadSizeInBytes := 50 }

/-- Witness for C6: percentage moves from the before to the after
snapshot without decreasing. -/
theorem globalPercentage_monotone_witness :
    ∃ p p', globalPercentage [("a", w6Before)] = some p ∧
      globalPercentage [("a", w6After)] = some p' ∧ p ≤ p' :=
  globalPercentage_monotone [("a", w6Before)] [("a", w6After)]
    (List.Forall₂.cons
      ⟨rfl, ⟨rfl, rfl, rfl, by decide, Or.inr ⟨rfl, rfl⟩⟩,
        fun c _ h2 => by
          injection h2 with h
          subst h
          decide⟩
      List.Forall₂.nil)
    (by decide)

/-- A record whose transfer of its 100-byte compressed file finished
while still flagged in-progress. -/
def c6Done : Upload :=
  { demoUpload with
    originalSizeInBytes := 100
    file := { name := "photo.png", size := 100 }
    compressedSizeInBytes := some 100
    uploadSizeInBytes := 100 }

/-- A record of 100 bytes still awaiting compression. -/
def c6Waiting : Upload :=
  { demoUpload with originalSizeInBytes := 100, file := { name := "other.png", size := 100 } }

/-- The same record once compression produced a *larger* 300-byte
file. -/
def c6Grown : Upload :=
  { c6Waiting with compressedSizeInBytes := some 300 }

/-- Counterexample to C6 as stated: all records stay in-progress,
transferred bytes never decrease and the second record's denominator
merely becomes known — yet the aggregate percentage drops from 50 to
25, because compression grew the file from 100 to 300 bytes. -/
theorem globalPercentage_monotone_counterexample :
    storeEvolves [("a", c6Done), ("b", c6Waiting)] [("a", c6Done), ("b", c6Grown)] ∧
    ¬ ∃ p p', globalPercentage [("a", c6Done), ("b", c6Waiting)] = some p ∧
      globalPercentage [("a", c6Done), ("b", c6Grown)] = some p' ∧ p ≤ p' := by
  constructor
  · exact List.Forall₂.cons ⟨rfl, rfl, rfl, rfl, Nat.le_refl _, Or.inl rfl⟩
      (List.Forall₂.cons ⟨rfl, rfl, rfl, rfl, Nat.le_refl _, Or.inr ⟨rfl, rfl⟩⟩
        List.Forall₂.nil)
  · rintro ⟨p, p', h1, h2, hle⟩
    have e1 : globalPercentage [("a", c6Done), ("b", c6Waiting)] = some 50 := by decide
    have e2 : globalPercentage [("a", c6Done), ("b", c6Grown)] = some 25 := by decide
    rw [e1] at h1
    rw [e2] at h2
    injection h1 with h1'
    injection h2 with h2'
    omega

/-- Claim C1 (amended): for a collection with a pending record and a
nonzero denominator sum, the reported percentage is the rounding of
`100 * sum(transferred) / sum(denominator)` towards the nearest
integer, halves towards `+∞` — `Math.round`, not floor — clamped to a
maximum of 100; the per-record numerator/denominator rules are those of
`numerOf`/`denomOf` (a record's compressed size counts as known when
present and nonzero). -/
theorem globalPercentage_round_half_up (s : Store)
    (hpend : isThereAnyPendingUploads s = true) (ht : totalOf s ≠ 0) :
    globalPercentage s =
      some (min ⌊100 * (uploadedOf s : ℚ) / (totalOf s : ℚ) + 1 / 2⌋₊ 100) := by
  have hcast : ((uploadedOf s * 100 : ℕ) : ℚ) / ((totalOf s : ℕ) : ℚ) =
      100 * (uploadedOf s : ℚ) / (totalOf s : ℚ) := by
    push_cast
    ring
  have hr : jsRound (uploadedOf s * 100) (totalOf s) =
      ⌊100 * (uploadedOf s : ℚ) / (totalOf s : ℚ) + 1 / 2⌋₊ := by
    rw [jsRound_eq_floor (uploadedOf s * 100) (totalOf s) ht]
    rw [hcast]
  simp [globalPercentage, hpend, ht, hr]

/-- A pending record: 500-byte file compressed to 200 bytes, one byte
transferred so far. -/
def c1Upload : Upload :=
  { demoUpload with
    originalSizeInBytes := 500
    file := { name := "photo.png", size := 500 }
    compressedSizeInBytes := some 200
    uploadSizeInBytes := 1 }

/-- Witness for C1 (amended): the one-record store evaluates exactly to
the clamped round-half-up value. -/
theorem globalPercentage_round_half_up_witness :
    globalPercentage [("a", c1Upload)] =
      some (min ⌊100 * (uploadedOf [("a", c1Upload)] : ℚ) / (totalOf [("a", c1Upload)] : ℚ) + 1 / 2⌋₊ 100) :=
  globalPercentage_round_half_up [("a", c1Upload)] (by decide) (by decide)

/-- Counterexample to C1 as stated: one pending record with compressed
size 200 and 1 byte transferred.  The floor-rounded clamped value of
`100 * 1 / 200` is 0 — both as natural division and as the rational
floor — but the code reports 1, because `Math.round` sends `0.5` to
`1`. -/
theorem globalPercentage_floor_counterexample :
    isThereAnyPendingUploads [("a", c1Upload)] = true ∧
    min ((100 * uploadedOf [("a", c1Upload)]) / totalOf [("a", c1Upload)]) 100 = 0 ∧
    min ⌊100 * (uploadedOf [("a", c1Upload)] : ℚ) / (totalOf [("a", c1Upload)] : ℚ)⌋₊ 100 = 0 ∧
    globalPercentage [("a", c1Upload)] = some 1 := by
  refine ⟨by decide, by decide, ?_, by decide⟩
  have h1 : uploadedOf [("a", c1Upload)] = 1 := by decide
  have h2 : totalOf [("a", c1Upload)] = 200 := by decide
  rw [h1, h2]
  have hv : 100 * ((1 : ℕ) : ℚ) / ((200 : ℕ) : ℚ) = 1 / 2 := by norm_num
  rw [hv]
  norm_num
